import Mathlib

/-
Verification of the spreadsheet formula engine (the reference resolver and
formula evaluator of `src/unnamed/part_001`: `parseCellReference`, `parseRange`,
`getCellValue`, `getCellText`, `evaluateFormula`).

Modelling conventions (shallow embedding of the TypeScript source):
* JS strings are embedded as `List Char` (`JStr`); case mapping (`toUpperCase`,
  `toLowerCase`) is modelled on the ASCII range, which covers the engine's
  whole vocabulary.
* JS numbers are embedded as exact rationals: an unnormalized fraction type
  `Q` (integer numerator, positive natural denominator) with value-level
  comparison, so that every operation reduces inside the kernel; the generic
  `eval` fallback additionally models the JS special values via `JsNum`
  (NaN, ±Infinity).
  `parseFloat` / `parseInt` are modelled on their decimal (and hex, for
  `parseInt`) grammars; the `Infinity` literal accepted by JS `parseFloat` is
  modelled as a parse failure, and number printing produces the exact decimal
  expansion (JS prints the shortest roundtripping decimal of the float64
  value; on the integers handled by the claims the two agree).
* The ambient state read by `TODAY()` / `NOW()` (`new Date()` plus the host
  locale) is made explicit as a `JsEnv` argument holding the two strings the
  host would format.
* The cell store `Map<string, CellData>` is embedded as an association list
  with unique keys assumed nowhere (lookup takes the first binding, matching
  `Map.get` on the store the application builds).
* JS exceptions inside the evaluator's `try` block (a `RangeError` from
  `toFixed`, a syntax/type error from `eval`) are modelled with `Except`;
  `evaluateFormula` wraps the throwing body `evalExprInner` exactly like the
  source's try/catch.
-/

/-- Embedding of a JavaScript string as a list of characters. -/
abbrev JStr := List Char

/-- Characters of a Lean string literal, used to write concrete `JStr` values. -/
def chars (s : String) : JStr := s.data

/-- Character class `[A-Z]` of the source regexes. -/
def isUpperB (c : Char) : Bool := decide (65 ≤ c.toNat ∧ c.toNat ≤ 90)

/-- Character class `\d` = `[0-9]` of the source regexes. -/
def isDigitB (c : Char) : Bool := decide (48 ≤ c.toNat ∧ c.toNat ≤ 57)

/-- Character class `[A-Z0-9]` (the `IF` condition's left operand). -/
def isAlnumB (c : Char) : Bool := isUpperB c || isDigitB c

/-- Character class `[><=!]` (the `IF` condition's operator). -/
def isOpB (c : Char) : Bool :=
  decide (c.toNat = 62 ∨ c.toNat = 60 ∨ c.toNat = 61 ∨ c.toNat = 33)

/-- Character class `[A-Z0-9:]` (the `VLOOKUP` range argument). -/
def isRangeB (c : Char) : Bool := isAlnumB c || decide (c.toNat = 58)

/-- Quote characters stripped by `replace(/^["']|["']$/g, '')`. -/
def isQuoteB (c : Char) : Bool := decide (c.toNat = 34 ∨ c.toNat = 39)

/-- White space recognized by JS `trim` / `parseFloat` (the ASCII part). -/
def isWsB (c : Char) : Bool :=
  decide (c.toNat = 32 ∨ c.toNat = 9 ∨ c.toNat = 10 ∨ c.toNat = 11 ∨
          c.toNat = 12 ∨ c.toNat = 13)

/-- Characters kept by the arithmetic fallback's sanitizer
    (`replace(/[^0-9+\-*\/().]/g, '')`). -/
def isArithB (c : Char) : Bool :=
  isDigitB c || decide (c.toNat = 43 ∨ c.toNat = 45 ∨ c.toNat = 42 ∨
                        c.toNat = 47 ∨ c.toNat = 40 ∨ c.toNat = 41 ∨ c.toNat = 46)

/-- JS `String.startsWith` on the character-list embedding. -/
def jsStartsWith : JStr → JStr → Bool
  | [], _ => true
  | _ :: _, [] => false
  | p :: ps, c :: cs => decide (p = c) && jsStartsWith ps cs

/-- JS `String.endsWith(')')`: the last character is a right parenthesis. -/
def endsParen (l : JStr) : Bool :=
  match l.getLast? with
  | some c => decide (c = ')')
  | none => false

/-- ASCII model of JS `toUpperCase` on one character. -/
def upChar (c : Char) : Char :=
  if 97 ≤ c.toNat ∧ c.toNat ≤ 122 then Char.ofNat (c.toNat - 32) else c

/-- ASCII model of JS `toLowerCase` on one character. -/
def downChar (c : Char) : Char :=
  if 65 ≤ c.toNat ∧ c.toNat ≤ 90 then Char.ofNat (c.toNat + 32) else c

/-- ASCII model of JS `String.toUpperCase`. -/
def jsToUpper (l : JStr) : JStr := l.map upChar

/-- ASCII model of JS `String.toLowerCase`. -/
def jsToLower (l : JStr) : JStr := l.map downChar

/-- JS `String.trim` (ASCII white space). -/
def jsTrim (l : JStr) : JStr :=
  ((l.dropWhile isWsB).reverse.dropWhile isWsB).reverse

/-- JS `String.split(sep)` for a one-character separator: always returns at
    least one (possibly empty) piece. -/
def jsSplit (sep : Char) : JStr → List JStr
  | [] => [[]]
  | c :: cs =>
    if c = sep then [] :: jsSplit sep cs
    else
      match jsSplit sep cs with
      | r :: rs => (c :: r) :: rs
      | [] => [[c]]

/-- Model of `replace(/^["']|["']$/g, '')`: strip one leading and one trailing
    quote character (single or double). -/
def stripQuotes (l : JStr) : JStr :=
  let l1 := match l with
    | c :: cs => if isQuoteB c then cs else l
    | [] => l
  match l1.getLast? with
  | some c => if isQuoteB c then l1.dropLast else l1
  | none => l1

/-- Value of a digit string under `parseInt` (the row suffix `\d+`). -/
def digitsToNat (l : JStr) : Nat := l.foldl (fun a c => a * 10 + (c.toNat - 48)) 0

/-- Column letters decoded as base-26 with A=1 … Z=26
    (`col = col * 26 + (charCode - 64)` in the source). -/
def lettersToNum (l : JStr) : Nat := l.foldl (fun a c => a * 26 + (c.toNat - 64)) 0

/-- Coordinates produced by `parseCellReference`: zero-based column, and the
    row `parseInt(rowStr) - 1`, an integer because a row digit string `0`
    yields `-1` in the source. -/
structure CellRef where
  col : Nat
  row : Int
deriving DecidableEq, Repr

/-- Embedding of the source's `parseCellReference`: match
    `^([A-Z]+)(\d+)$` (case-sensitively, as in the source — there is no `i`
    flag and no uppercasing inside the function), decode the letters as
    base-26 (A=1 … Z=26) minus one, and subtract one from the numeric row. -/
def parseCellReference (ref : JStr) : Option CellRef :=
  let cs := ref.takeWhile isUpperB
  let rest := ref.dropWhile isUpperB
  if cs.length = 0 then none
  else if rest.length = 0 then none
  else if rest.all isDigitB then
    some ⟨lettersToNum cs - 1, (digitsToNat rest : Int) - 1⟩
  else none

/-- One step list of the column-label loop
    (`colLabel = String.fromCharCode(65 + num % 26) + colLabel; num = Math.floor(num / 26) - 1`),
    written fuel-first so it reduces structurally; `fuel > n` always suffices
    because `n` strictly decreases. -/
def fmtColAux : Nat → Nat → JStr
  | 0, _ => []
  | fuel + 1, n =>
    if n < 26 then [Char.ofNat (65 + n % 26)]
    else fmtColAux fuel (n / 26 - 1) ++ [Char.ofNat (65 + n % 26)]

/-- The column-label formatting loop of `parseRange` (what the spec calls
    `formatColumnLabel`): zero-based 0 ↦ "A", 25 ↦ "Z", 26 ↦ "AA". -/
def formatColumnLabel (n : Nat) : JStr := fmtColAux (n + 1) n

/-- Integer enumeration `a, a+1, …, b` (empty when `b < a`), the row loop of
    `parseRange`. -/
def intRange (a b : Int) : List Int :=
  (List.range (b + 1 - a).toNat).map (fun i => a + i)

/-- Natural-number enumeration `a, a+1, …, b` (empty when `b < a`), the
    column loop of `parseRange`. -/
def natRange (a b : Nat) : List Nat :=
  (List.range (b + 1 - a)).map (fun i => a + i)

/-- JS integer printing for the `${row + 1}` interpolation. -/
def natStrAux : Nat → Nat → JStr
  | 0, _ => []
  | fuel + 1, n =>
    if n < 10 then [Char.ofNat (48 + n)]
    else natStrAux fuel (n / 10) ++ [Char.ofNat (48 + n % 10)]

/-- Decimal digits of a natural number. -/
def natStr (n : Nat) : JStr := natStrAux (n + 1) n

/-- Decimal digits of an integer, with a leading minus sign when negative. -/
def intStr (i : Int) : JStr :=
  if i < 0 then '-' :: natStr i.natAbs else natStr i.toNat

/-- Embedding of the source's `parseRange`: split on `:`, return `[]` unless
    both parts are non-empty and parse as references, then enumerate the
    rectangle row-major from the start corner to the end corner. The source
    loops `for (row = startRef.row; row <= endRef.row; row++)` — there is no
    min/max normalization, so a reversed corner pair yields the empty list. -/
def parseRange (range : JStr) : List JStr :=
  match jsSplit ':' range with
  | s :: e :: _ =>
    if s.length = 0 ∨ e.length = 0 then []
    else
      match parseCellReference s, parseCellReference e with
      | some sr, some er =>
        (intRange sr.row er.row).flatMap (fun r =>
          (natRange sr.col er.col).map (fun c =>
            formatColumnLabel c ++ intStr (r + 1)))
      | _, _ => []
  | _ => []

/-- The cell record of the source's `CellData` interface. -/
structure CellData where
  value : JStr
  formula : Option JStr := none
  displayValue : Option JStr := none
deriving DecidableEq, Repr

/-- The cell store `Map<string, CellData>`, embedded as an association list;
    lookup returns the first binding, matching `Map.get`. -/
abbrev CellStore := List (JStr × CellData)

/-- Model of `cells.get(cellId)`. -/
def lookupCell (cells : CellStore) (k : JStr) : Option CellData :=
  match cells.find? (fun p => decide (p.1 = k)) with
  | some p => some p.2
  | none => none

/-- JS `cellData.displayValue || cellData.value`: an empty `displayValue`
    is falsy and falls back to `value`. -/
def effText (cd : CellData) : JStr :=
  match cd.displayValue with
  | some d => if d.length = 0 then cd.value else d
  | none => cd.value

/-- Embedding of the source's `getCellText`. -/
def getCellText (cellId : JStr) (cells : CellStore) : JStr :=
  match lookupCell cells cellId with
  | some cd => effText cd
  | none => []

/-- Exact rational value of a JS number, kept as an unnormalized fraction
    (denominator positive by construction) so that all arithmetic is
    structural and kernel-computable; equality and order are value-level
    (cross-multiplied). Float64 values are dyadic rationals, so this model
    is exact on them, while the arithmetic itself is exact where float64
    rounds — a deliberate modelling choice. -/
structure Q where
  num : Int
  den : Nat
deriving DecidableEq, Repr

/-- Embedding of a natural number. -/
def qOfNat (n : Nat) : Q := ⟨n, 1⟩

/-- The number zero. -/
def qZero : Q := qOfNat 0

/-- Value equality of fractions. -/
def qEq (a b : Q) : Bool := decide (a.num * (b.den : Int) = b.num * (a.den : Int))

/-- Value order of fractions (denominators are positive). -/
def qLt (a b : Q) : Bool := decide (a.num * (b.den : Int) < b.num * (a.den : Int))

/-- Non-strict value order. -/
def qLe (a b : Q) : Bool := decide (a.num * (b.den : Int) ≤ b.num * (a.den : Int))

/-- Negation. -/
def qNeg (a : Q) : Q := ⟨-a.num, a.den⟩

/-- Addition. -/
def qAdd (a b : Q) : Q := ⟨a.num * b.den + b.num * a.den, a.den * b.den⟩

/-- Subtraction. -/
def qSub (a b : Q) : Q := qAdd a (qNeg b)

/-- Multiplication. -/
def qMul (a b : Q) : Q := ⟨a.num * b.num, a.den * b.den⟩

/-- Reciprocal (callers guard the zero case, where JS produces an infinity
    rather than a number). -/
def qInv (a : Q) : Q :=
  if a.num < 0 then ⟨-(a.den : Int), a.num.natAbs⟩ else ⟨(a.den : Int), a.num.natAbs⟩

/-- Division (zero divisor guarded at call sites). -/
def qDiv (a b : Q) : Q := qMul a (qInv b)

/-- Natural power. -/
def qPow (a : Q) : Nat → Q
  | 0 => qOfNat 1
  | n + 1 => qMul (qPow a n) a

/-- Integer power. -/
def qZpow (a : Q) : Int → Q
  | .ofNat n => qPow a n
  | .negSucc n => qInv (qPow a (n + 1))

/-- Binary minimum by value. -/
def qMin (a b : Q) : Q := if qLe a b = true then a else b

/-- Binary maximum by value. -/
def qMax (a b : Q) : Q := if qLe a b = true then b else a

/-- Floor of a fraction. -/
def qFloor (a : Q) : Int := Int.fdiv a.num (a.den : Int)

/-- Model of JS `parseFloat` on its decimal grammar
    (`\s*[+-]?(\d+(\.\d*)?|\.\d+)([eE][+-]?\d+)?`, longest valid prefix);
    `none` stands for `NaN`. The `Infinity` literal JS additionally accepts
    is modelled as `none`. -/
def parseFloatJS (l : JStr) : Option Q :=
  let l1 := l.dropWhile isWsB
  let sl : Bool × JStr :=
    match l1 with
    | c :: cs => if c = '-' then (true, cs) else if c = '+' then (false, cs) else (false, l1)
    | [] => (false, l1)
  let ip := sl.2.takeWhile isDigitB
  let l3 := sl.2.drop ip.length
  let fl : JStr × JStr :=
    match l3 with
    | c :: cs =>
      if c = '.' then (cs.takeWhile isDigitB, cs.drop (cs.takeWhile isDigitB).length)
      else ([], l3)
    | [] => ([], l3)
  if ip.length = 0 ∧ fl.1.length = 0 then none
  else
    let mant : Q :=
      qAdd (qOfNat (digitsToNat ip))
        (qDiv (qOfNat (digitsToNat fl.1)) (qPow (qOfNat 10) fl.1.length))
    let ex : Int :=
      match fl.2 with
      | c :: cs =>
        if c = 'e' ∨ c = 'E' then
          let se : Int × JStr :=
            match cs with
            | d :: ds => if d = '-' then (-1, ds) else if d = '+' then (1, ds) else (1, cs)
            | [] => (1, cs)
          let ed := se.2.takeWhile isDigitB
          if ed.length = 0 then 0 else se.1 * (digitsToNat ed : Int)
        else 0
      | [] => 0
    let v := qMul mant (qZpow (qOfNat 10) ex)
    some (if sl.1 then qNeg v else v)

/-- Embedding of the source's `getCellValue`: missing cells and unparseable
    text coerce to 0. -/
def getCellValue (cellId : JStr) (cells : CellStore) : Q :=
  match lookupCell cells cellId with
  | some cd =>
    match parseFloatJS (effText cd) with
    | some q => q
    | none => qZero
  | none => qZero

/-- Hex digit class for `parseInt`'s automatic `0x` radix. -/
def isHexB (c : Char) : Bool :=
  isDigitB c || decide (65 ≤ c.toNat ∧ c.toNat ≤ 70) ||
    decide (97 ≤ c.toNat ∧ c.toNat ≤ 102)

/-- Value of a hex digit. -/
def hexVal (c : Char) : Nat :=
  if isDigitB c then c.toNat - 48
  else if c.toNat ≤ 70 then c.toNat - 55
  else c.toNat - 87

/-- Value of a hex digit string. -/
def hexToNat (l : JStr) : Nat := l.foldl (fun a c => a * 16 + hexVal c) 0

/-- Model of JS `parseInt` with no radix argument: optional sign, automatic
    hexadecimal on a `0x`/`0X` prefix, otherwise leading decimal digits;
    `none` stands for `NaN`. -/
def parseIntJS (l : JStr) : Option Int :=
  let l1 := l.dropWhile isWsB
  let sl : Int × JStr :=
    match l1 with
    | c :: cs => if c = '-' then (-1, cs) else if c = '+' then (1, cs) else (1, l1)
    | [] => (1, l1)
  match sl.2 with
  | z :: x :: rest =>
    if z = '0' ∧ (x = 'x' ∨ x = 'X') then
      let hd := rest.takeWhile isHexB
      if hd.length = 0 then none else some (sl.1 * (hexToNat hd : Int))
    else
      let dd := sl.2.takeWhile isDigitB
      if dd.length = 0 then none else some (sl.1 * (digitsToNat dd : Int))
  | _ =>
    let dd := sl.2.takeWhile isDigitB
    if dd.length = 0 then none else some (sl.1 * (digitsToNat dd : Int))

/-- Left-pad with zero digits to `k` characters. -/
def padZeros (k : Nat) (l : JStr) : JStr := List.replicate (k - l.length) '0' ++ l

/-- Drop trailing zero digits of a fractional part. -/
def stripTrailingZeros (l : JStr) : JStr :=
  (l.reverse.dropWhile (fun c => decide (c = '0'))).reverse

/-- Decimal printing of a non-negative rational: exact expansion when it
    terminates (every value a float64 can hold does), `num/den` as an explicit
    model fallback otherwise. On integers this agrees with JS `toString`. -/
def qToStrNN (q : Q) : JStr :=
  if (q.den : Int) ∣ q.num then natStr (Int.fdiv q.num (q.den : Int)).toNat
  else
    match (List.range 128).find?
        (fun k => decide (q.num.natAbs * 10 ^ k % q.den = 0)) with
    | some k =>
      let scaled := q.num.natAbs * 10 ^ k / q.den
      natStr (scaled / 10 ^ k) ++
        '.' :: stripTrailingZeros (padZeros k (natStr (scaled % 10 ^ k)))
    | none => natStr q.num.natAbs ++ '/' :: natStr q.den

/-- Model of JS number `toString` on a rational value. -/
def qToStr (q : Q) : JStr :=
  if qLt q qZero = true then '-' :: qToStrNN (qNeg q) else qToStrNN q

/-- Rounding to the nearest integer, ties away from zero (the rounding of
    `toFixed` on the values the engine meets). -/
def roundHalfAway (q : Q) : Int :=
  if qLe qZero q = true then qFloor (qAdd q ⟨1, 2⟩)
  else -qFloor (qAdd (qNeg q) ⟨1, 2⟩)

/-- Model of JS `Number.toFixed(d)` for `0 ≤ d ≤ 100` (outside that range the
    host throws a `RangeError`, handled at the call site). -/
def toFixedStr (q : Q) (d : Nat) : JStr :=
  let r := roundHalfAway (qMul q (qPow (qOfNat 10) d))
  let sgn : JStr := if r < 0 then ['-'] else []
  if d = 0 then sgn ++ natStr r.natAbs
  else sgn ++ natStr (r.natAbs / 10 ^ d) ++ '.' :: padZeros d (natStr (r.natAbs % 10 ^ d))

/-- JS numbers as seen by the `eval` fallback: a rational, an infinity, or
    `NaN`. -/
inductive JsNum where
  | num (q : Q)
  | inf (neg : Bool)
  | nan
deriving Repr

/-- JS unary minus. -/
def jneg : JsNum → JsNum
  | .num q => .num (qNeg q)
  | .inf b => .inf (!b)
  | .nan => .nan

/-- JS addition with the IEEE special values. -/
def jadd : JsNum → JsNum → JsNum
  | .num a, .num b => .num (qAdd a b)
  | .inf a, .inf b => if a = b then .inf a else .nan
  | .inf a, .num _ => .inf a
  | .num _, .inf b => .inf b
  | _, _ => .nan

/-- JS subtraction. -/
def jsub (a b : JsNum) : JsNum := jadd a (jneg b)

/-- JS multiplication with the IEEE special values. -/
def jmul : JsNum → JsNum → JsNum
  | .num a, .num b => .num (qMul a b)
  | .inf a, .inf b => .inf (a != b)
  | .inf a, .num q => if qEq q qZero then .nan else .inf (a != qLt q qZero)
  | .num q, .inf b => if qEq q qZero then .nan else .inf (b != qLt q qZero)
  | _, _ => .nan

/-- JS division: division by zero yields an infinity (or `NaN` for `0/0`),
    never an exception. The model has no signed zero, so `x / -0` is not
    distinguished from `x / 0`. -/
def jdiv : JsNum → JsNum → JsNum
  | .num a, .num b =>
    if qEq b qZero then (if qEq a qZero then .nan else .inf (qLt a qZero))
    else .num (qDiv a b)
  | .num _, .inf _ => .num qZero
  | .inf a, .num q => .inf (a != qLt q qZero)
  | _, _ => .nan

/-- JS `toString` on an evaluated number. -/
def jsNumToStr : JsNum → JStr
  | .num q => qToStr q
  | .inf b => if b then chars "-Infinity" else chars "Infinity"
  | .nan => chars "NaN"

/-- Tokens of the sanitized arithmetic expression handed to `eval`. -/
inductive ATok where
  | num (q : Q)
  | plus
  | minus
  | star
  | slash
  | lp
  | rp
deriving Repr

/-- Tokenizer for the sanitized arithmetic string (digits, `.`, the four
    operators, parentheses); `none` is a JS `SyntaxError`. -/
def tokenizeAux : Nat → JStr → Option (List ATok)
  | 0, _ => none
  | _ + 1, [] => some []
  | fuel + 1, c :: cs =>
    if c = '+' then (tokenizeAux fuel cs).map (.plus :: ·)
    else if c = '-' then (tokenizeAux fuel cs).map (.minus :: ·)
    else if c = '*' then (tokenizeAux fuel cs).map (.star :: ·)
    else if c = '/' then (tokenizeAux fuel cs).map (.slash :: ·)
    else if c = '(' then (tokenizeAux fuel cs).map (.lp :: ·)
    else if c = ')' then (tokenizeAux fuel cs).map (.rp :: ·)
    else
      let ip := (c :: cs).takeWhile isDigitB
      let r1 := (c :: cs).drop ip.length
      match r1 with
      | d :: ds =>
        if d = '.' then
          let fp := ds.takeWhile isDigitB
          if ip.length = 0 ∧ fp.length = 0 then none
          else
            (tokenizeAux fuel (ds.drop fp.length)).map
              ((.num (qAdd (qOfNat (digitsToNat ip))
                 (qDiv (qOfNat (digitsToNat fp)) (qPow (qOfNat 10) fp.length)))) :: ·)
        else (tokenizeAux fuel r1).map ((.num (qOfNat (digitsToNat ip))) :: ·)
      | [] => some [.num (qOfNat (digitsToNat ip))]

/-- Parser modes: full expression, term (`*`/`/` level), unary prefix,
    primary, and the two left-associative loops carrying the value so far. -/
inductive PMode where
  | expr
  | exprLoop (v : JsNum)
  | term
  | termLoop (v : JsNum)
  | unary
  | primary

/-- Recursive-descent parser/evaluator for the sanitized arithmetic
    expression, with standard precedence and parenthesization, structural in
    its fuel so that it evaluates by kernel reduction. -/
def parseA : Nat → PMode → List ATok → Except Unit (JsNum × List ATok)
  | 0, _, _ => .error ()
  | f + 1, .expr, ts => do
    let (v, r) ← parseA f .term ts
    parseA f (.exprLoop v) r
  | f + 1, .exprLoop v, .plus :: ts => do
    let (w, r) ← parseA f .term ts
    parseA f (.exprLoop (jadd v w)) r
  | f + 1, .exprLoop v, .minus :: ts => do
    let (w, r) ← parseA f .term ts
    parseA f (.exprLoop (jsub v w)) r
  | _ + 1, .exprLoop v, ts => .ok (v, ts)
  | f + 1, .term, ts => do
    let (v, r) ← parseA f .unary ts
    parseA f (.termLoop v) r
  | f + 1, .termLoop v, .star :: ts => do
    let (w, r) ← parseA f .unary ts
    parseA f (.termLoop (jmul v w)) r
  | f + 1, .termLoop v, .slash :: ts => do
    let (w, r) ← parseA f .unary ts
    parseA f (.termLoop (jdiv v w)) r
  | _ + 1, .termLoop v, ts => .ok (v, ts)
  | f + 1, .unary, .minus :: ts => do
    let (v, r) ← parseA f .unary ts
    .ok (jneg v, r)
  | f + 1, .unary, .plus :: ts => parseA f .unary ts
  | f + 1, .unary, ts => parseA f .primary ts
  | _ + 1, .primary, .num q :: ts => .ok (.num q, ts)
  | f + 1, .primary, .lp :: ts => do
    let (v, r) ← parseA f .expr ts
    match r with
    | .rp :: r2 => .ok (v, r2)
    | _ => .error ()
  | _ + 1, .primary, _ => .error ()

/-- Model of the `eval(sanitized)` call: tokenize, parse, require all input
    consumed; `Except.error` stands for the thrown JS error the source's
    `catch` receives. -/
def evalArith (l : JStr) : Except Unit JsNum :=
  match tokenizeAux (l.length + 1) l with
  | none => .error ()
  | some ts =>
    match parseA ((ts.length + 1) * 8) .expr ts with
    | .ok (v, []) => .ok v
    | _ => .error ()

/-- The evaluator's error-code and literal strings. -/
def navail : JStr := chars "#N/A"

/-- The `#ERROR!` code produced by the catch-all handler. -/
def errStr : JStr := chars "#ERROR!"

/-- The `#NAME?` code of the final fallback. -/
def nameErr : JStr := chars "#NAME?"

/-- The `#VALUE!` code for bad `ROUND` arguments. -/
def valueErr : JStr := chars "#VALUE!"

/-- The literal `'0'` returned for empty aggregate ranges. -/
def zeroStr : JStr := chars "0"

/-- The `reduce((acc, id) => acc + getCellValue(id, cells), 0)` fold. -/
def sumCells (ids : List JStr) (cells : CellStore) : Q :=
  ids.foldl (fun a id => qAdd a (getCellValue id cells)) qZero

/-- `Math.min(...values)` on a non-empty list (the empty case is guarded in
    the source; 0 here is an arbitrary total-function default). -/
def minList : List Q → Q
  | [] => qZero
  | v :: vs => vs.foldl qMin v

/-- `Math.max(...values)` on a non-empty list (empty case guarded). -/
def maxList : List Q → Q
  | [] => qZero
  | v :: vs => vs.foldl qMax v

/-- The `SUM` branch value for an extracted range argument. -/
def sumVal (rng : JStr) (cells : CellStore) : JStr := qToStr (sumCells (parseRange rng) cells)

/-- The `AVERAGE` branch value: `'0'` for an empty expansion, else the exact
    mean. -/
def avgVal (rng : JStr) (cells : CellStore) : JStr :=
  let ids := parseRange rng
  if ids.length = 0 then zeroStr
  else qToStr (qDiv (sumCells ids cells) (qOfNat ids.length))

/-- The `MIN` branch value. -/
def minVal (rng : JStr) (cells : CellStore) : JStr :=
  let ids := parseRange rng
  if ids.length = 0 then zeroStr
  else qToStr (minList (ids.map (fun i => getCellValue i cells)))

/-- The `MAX` branch value. -/
def maxVal (rng : JStr) (cells : CellStore) : JStr :=
  let ids := parseRange rng
  if ids.length = 0 then zeroStr
  else qToStr (maxList (ids.map (fun i => getCellValue i cells)))

/-- The `COUNT` branch: cells whose text is non-empty and parses as a number. -/
def countVal (rng : JStr) (cells : CellStore) : JStr :=
  natStr ((parseRange rng).filter (fun id =>
    let t := getCellText id cells
    !(t.length = 0 : Bool) && (parseFloatJS t).isSome)).length

/-- The `COUNTA` branch: cells with non-empty text. -/
def countaVal (rng : JStr) (cells : CellStore) : JStr :=
  natStr ((parseRange rng).filter (fun id =>
    !((getCellText id cells).length = 0 : Bool))).length

/-- The `ROUND` branch: exactly two arguments, both numeric, else `#VALUE!`;
    `toFixed` throws a `RangeError` (modelled as `Except.error`) for a
    decimals count outside `0..100`. -/
def roundVal (inner : JStr) : Except Unit JStr :=
  match jsSplit ',' inner with
  | [a0, a1] =>
    match parseFloatJS a0, parseIntJS a1 with
    | some v, some d => if d < 0 ∨ 100 < d then .error () else .ok (toFixedStr v d.toNat)
    | _, _ => .ok valueErr
  | _ => .ok valueErr

/-- Argument resolution shared by `CONCAT`/`LEN`/`UPPER`/`LOWER`: a parseable
    cell reference reads the cell's text, anything else is a quote-stripped
    literal. -/
def argTextVal (arg : JStr) (cells : CellStore) : JStr :=
  let ta := jsTrim arg
  match parseCellReference ta with
  | some _ => getCellText ta cells
  | none => stripQuotes ta

/-- The `CONCAT` branch: resolve each comma-separated argument and join. -/
def concatVal (inner : JStr) (cells : CellStore) : JStr :=
  ((jsSplit ',' inner).map (fun a => argTextVal a cells)).flatten

/-- One anchored attempt of the unanchored condition regex
    `([A-Z0-9]+)\s*([><=!]+)\s*(.+)`, with the backtracking the character
    classes leave possible: when nothing follows the operator run, first the
    trailing `\s*` and then the operator give back one character to `(.+)`. -/
def compMatchAt (l : JStr) : Option (JStr × JStr × JStr) :=
  let g1 := l.takeWhile isAlnumB
  if g1.length = 0 then none
  else
    let r1 := l.drop g1.length
    let r2 := r1.drop (r1.takeWhile isWsB).length
    let op := r2.takeWhile isOpB
    if op.length = 0 then none
    else
      let r3 := r2.drop op.length
      let ws2 := r3.takeWhile isWsB
      let r4 := r3.drop ws2.length
      if r4.length ≠ 0 then some (g1, op, r4)
      else
        match ws2.getLast? with
        | some w => some (g1, op, [w])
        | none =>
          match op.getLast? with
          | some oc => if 2 ≤ op.length then some (g1, op.dropLast, [oc]) else none
          | none => none

/-- Leftmost match of the `IF` condition regex (JS `String.match` without
    anchors scans positions left to right). -/
def compMatchFn : JStr → Option (JStr × JStr × JStr)
  | [] => none
  | c :: cs =>
    match compMatchAt (c :: cs) with
    | some g => some g
    | none => compMatchFn cs

/-- All decompositions `l = a ++ "," ++ b`, ordered by the comma's position
    left to right. -/
def splitsAtComma : JStr → List (JStr × JStr)
  | [] => []
  | c :: cs =>
    (if c = ',' then [(([] : JStr), cs)] else []) ++
      (splitsAtComma cs).map (fun p => (c :: p.1, p.2))

/-- Backtracking match of `(.+),(.+),(.+)` against the text between `IF(` and
    the final `)`: the first group is greedy (rightmost comma first), then the
    second. -/
def ifInner (mid : JStr) : Option (JStr × JStr × JStr) :=
  (splitsAtComma mid).reverse.findSome? (fun p =>
    if p.1.length = 0 then none
    else
      (splitsAtComma p.2).reverse.findSome? (fun q =>
        if q.1.length = 0 ∨ q.2.length = 0 then none
        else some (p.1, q.1, q.2)))

/-- Model of `expression.match(/^IF\((.+),(.+),(.+)\)$/)`. -/
def ifMatch (expr : JStr) : Option (JStr × JStr × JStr) :=
  if jsStartsWith (chars "IF(") expr = true ∧ endsParen expr = true then
    ifInner ((expr.drop 3).dropLast)
  else none

/-- Backtracking match of `(.+),([A-Z0-9:]+),(\d+),(.+)` for `VLOOKUP`: the
    first group is greedy; the class groups are maximal runs (their classes
    exclude the separating commas, so no backtracking inside them can
    succeed). -/
def vlkInner (mid : JStr) : Option (JStr × JStr × JStr × JStr) :=
  (splitsAtComma mid).reverse.findSome? (fun p =>
    if p.1.length = 0 then none
    else
      let g2 := p.2.takeWhile isRangeB
      if g2.length = 0 then none
      else
        match p.2.drop g2.length with
        | c :: r3 =>
          if c = ',' then
            let g3 := r3.takeWhile isDigitB
            if g3.length = 0 then none
            else
              match r3.drop g3.length with
              | c2 :: r5 =>
                if c2 = ',' ∧ r5.length ≠ 0 then some (p.1, g2, g3, r5) else none
              | [] => none
          else none
        | [] => none)

/-- Model of `expression.match(/^VLOOKUP\((.+),([A-Z0-9:]+),(\d+),(.+)\)$/)`. -/
def vlookupMatch (expr : JStr) : Option (JStr × JStr × JStr × JStr) :=
  if jsStartsWith (chars "VLOOKUP(") expr = true ∧ endsParen expr = true then
    vlkInner ((expr.drop 8).dropLast)
  else none

/-- The `switch (operator)` of the `IF` branch; `none` on the right stands
    for a `NaN` comparison value, for which every comparison is false except
    `!==`. An unrecognized operator leaves `result = false`. -/
def jsCompare (op : JStr) (x : Q) (rhs : Option Q) : Bool :=
  match rhs with
  | some v =>
    if op = chars ">" then qLt v x
    else if op = chars "<" then qLt x v
    else if op = chars ">=" then qLe v x
    else if op = chars "<=" then qLe x v
    else if op = chars "==" ∨ op = chars "=" then qEq x v
    else if op = chars "!=" then !qEq x v
    else false
  | none => decide (op = chars "!=")

/-- The ambient state `TODAY()`/`NOW()` read (`new Date()` plus host locale),
    abstracted to the two strings the host would format. -/
structure JsEnv where
  todayStr : JStr
  nowStr : JStr
deriving DecidableEq, Repr

/-- Text of `cellIds[i]` for a `Nat` index: an out-of-range access yields JS
    `undefined`, whose map lookup misses and reads as empty text. -/
def cellTextAtN (ids : List JStr) (i : Nat) (cells : CellStore) : JStr :=
  match ids[i]? with
  | some id => getCellText id cells
  | none => []

/-- Text of `cellIds[i]` for a possibly negative JS index. -/
def cellTextAtI (ids : List JStr) (i : Int) (cells : CellStore) : JStr :=
  if i < 0 then [] else cellTextAtN ids i.toNat cells

/-- Body of the `VLOOKUP` branch. The column count is re-derived from the
    range ends exactly as in the source; `g3` matched `\d+`, so
    `parseInt(g3)` is its decimal value. The unreachable `undefined` range
    part (only possible when `cellIds` is empty, already returned) would be a
    thrown `TypeError`, hence `Except.error`. -/
def vlookupBody (g1 g2 g3 : JStr) (cells : CellStore) : Except Unit JStr :=
  let lookupValue := stripQuotes (jsTrim g1)
  let columnIndex : Int := (digitsToNat g3 : Int)
  let cellIds := parseRange g2
  if cellIds.length = 0 then .ok navail
  else
    match (jsSplit ':' g2)[0]?, (jsSplit ':' g2)[1]? with
    | some p0, some p1 =>
      match parseCellReference p0, parseCellReference p1 with
      | some sr, some er =>
        let nc := ((er.col : Int) + 1 - (sr.col : Int)).toNat
        let nr := cellIds.length / nc
        match (List.range nr).find?
            (fun r => decide (cellTextAtN cellIds (r * nc) cells = lookupValue)) with
        | some r => .ok (cellTextAtI cellIds ((r : Int) * (nc : Int) + columnIndex - 1) cells)
        | none => .ok navail
      | _, _ => .ok navail
    | _, _ => .error ()

/-- The dispatch tail after the `IF` branch: `VLOOKUP`, then a bare cell
    reference, then the sanitized arithmetic fallback, then `#NAME?`. -/
def afterIf (expr : JStr) (cells : CellStore) : Except Unit JStr :=
  match vlookupMatch expr with
  | some (g1, g2, g3, _) => vlookupBody g1 g2 g3 cells
  | none =>
    match parseCellReference expr with
    | some _ => .ok (qToStr (getCellValue expr cells))
    | none =>
      let sanitized := expr.filter isArithB
      if sanitized.length = 0 then .ok nameErr
      else (evalArith sanitized).map jsNumToStr

/-- The `IF` branch: on a regex match whose condition also matches the
    comparison pattern, return a quote-stripped branch string; if the
    condition fails the comparison pattern the source falls through to the
    following branches. -/
def ifStage (expr : JStr) (cells : CellStore) : Except Unit JStr :=
  match ifMatch expr with
  | some (c, tv, fv) =>
    match compMatchFn (jsTrim c) with
    | some (ref, op, rhs) =>
      .ok (if jsCompare op (getCellValue ref cells) (parseFloatJS rhs) then
             stripQuotes (jsTrim tv)
           else stripQuotes (jsTrim fv))
    | none => afterIf expr cells
  | none => afterIf expr cells

/-- The first twelve dispatch branches of the try block (`SUM` through
    `LOWER`), each an early `return` in the source; `none` means none of
    their prefixes matched and control falls through to `TODAY()`/`NOW()`/
    `IF`/`VLOOKUP`/the fallbacks. None of these branches reads the ambient
    state. -/
def aggTextStage (expr : JStr) (cells : CellStore) : Option (Except Unit JStr) :=
  if jsStartsWith (chars "SUM(") expr = true ∧ endsParen expr = true then
    some (.ok (sumVal ((expr.drop 4).dropLast) cells))
  else if jsStartsWith (chars "AVERAGE(") expr = true ∧ endsParen expr = true then
    some (.ok (avgVal ((expr.drop 8).dropLast) cells))
  else if jsStartsWith (chars "MIN(") expr = true ∧ endsParen expr = true then
    some (.ok (minVal ((expr.drop 4).dropLast) cells))
  else if jsStartsWith (chars "MAX(") expr = true ∧ endsParen expr = true then
    some (.ok (maxVal ((expr.drop 4).dropLast) cells))
  else if jsStartsWith (chars "COUNT(") expr = true ∧ endsParen expr = true then
    some (.ok (countVal ((expr.drop 6).dropLast) cells))
  else if jsStartsWith (chars "COUNTA(") expr = true ∧ endsParen expr = true then
    some (.ok (countaVal ((expr.drop 7).dropLast) cells))
  else if jsStartsWith (chars "ROUND(") expr = true ∧ endsParen expr = true then
    some (roundVal ((expr.drop 6).dropLast))
  else if jsStartsWith (chars "CONCAT(") expr = true ∧ endsParen expr = true then
    some (.ok (concatVal ((expr.drop 7).dropLast) cells))
  else if jsStartsWith (chars "LEN(") expr = true ∧ endsParen expr = true then
    some (.ok (natStr (argTextVal ((expr.drop 4).dropLast) cells).length))
  else if jsStartsWith (chars "UPPER(") expr = true ∧ endsParen expr = true then
    some (.ok (jsToUpper (argTextVal ((expr.drop 6).dropLast) cells)))
  else if jsStartsWith (chars "LOWER(") expr = true ∧ endsParen expr = true then
    some (.ok (jsToLower (argTextVal ((expr.drop 6).dropLast) cells)))
  else none

/-- The try-block body of `evaluateFormula`, dispatching on the uppercased
    expression in the source's order; `Except.error` marks the places where
    the host can throw (caught by the wrapper). -/
def evalExprInner (env : JsEnv) (expr : JStr) (cells : CellStore) : Except Unit JStr :=
  match aggTextStage expr cells with
  | some r => r
  | none =>
    if expr = chars "TODAY()" then .ok env.todayStr
    else if expr = chars "NOW()" then .ok env.nowStr
    else ifStage expr cells

set_option linter.unusedVariables false in
/-- Embedding of the source's `evaluateFormula`: a non-formula string is
    returned unchanged; otherwise the `=` is stripped, the rest trimmed and
    uppercased, the try-block body run, and any thrown error converted to
    `#ERROR!`. The `currentCellId` parameter is accepted but never read, as
    in the source. -/
def evaluateFormula (env : JsEnv) (formula : JStr) (currentCellId : JStr)
    (cells : CellStore) : JStr :=
  if jsStartsWith (chars "=") formula = true then
    match evalExprInner env (jsToUpper (jsTrim (formula.drop 1))) cells with
    | .ok s => s
    | .error _ => errStr
  else formula

/-- Cell with a raw value only, used for concrete stores in the theorems. -/
def mkCell (v : String) : CellData := ⟨chars v, none, none⟩

/-- Concrete ambient state for closed evaluations. -/
def exEnv : JsEnv := ⟨chars "1/1/2024", chars "1/1/2024, 12:00:00 AM"⟩

/-- A different concrete ambient state. -/
def exEnv2 : JsEnv := ⟨chars "2/2/2024", chars "2/2/2024, 3:00:00 PM"⟩

/-- C9: the result of `evaluateFormula` never depends on the `currentCellId`
    argument — the source accepts the parameter but never reads it, so any
    two cell ids give identical results. -/
theorem c9_cellid_independent (env : JsEnv) (formula c1 c2 : JStr) (cells : CellStore) :
    evaluateFormula env formula c1 cells = evaluateFormula env formula c2 cells := rfl

/-- C1: for every formula string, current cell id, and cell store,
    `evaluateFormula` returns a string and never throws: a non-formula input
    is returned unchanged, a successful evaluation of the try-block body is
    returned as is, and any error the body raises is caught and converted to
    the string `#ERROR!` instead of propagating. -/
theorem c1_never_throws (env : JsEnv) (formula currentCellId : JStr) (cells : CellStore) :
    (jsStartsWith (chars "=") formula = false ∧
      evaluateFormula env formula currentCellId cells = formula) ∨
    (∃ s, evalExprInner env (jsToUpper (jsTrim (formula.drop 1))) cells = .ok s ∧
      evaluateFormula env formula currentCellId cells = s) ∨
    (evalExprInner env (jsToUpper (jsTrim (formula.drop 1))) cells = .error () ∧
      evaluateFormula env formula currentCellId cells = errStr) := by
  unfold evaluateFormula
  cases h : jsStartsWith (chars "=") formula with
  | false => exact Or.inl ⟨rfl, by simp [h]⟩
  | true =>
    cases he : evalExprInner env (jsToUpper (jsTrim (formula.drop 1))) cells with
    | ok s => exact Or.inr (Or.inl ⟨s, rfl, by simp [h, he]⟩)
    | error e => cases e; exact Or.inr (Or.inr ⟨rfl, by simp [h, he]⟩)

/-- C2 counterexample: `parseRange "B2:A1"` is the empty list, not the
    normalized rectangle `["A1","A2","B1","B2"]` the claim asserts. -/
theorem c2_counterexample :
    parseRange (chars "B2:A1") = [] ∧
    parseRange (chars "B2:A1") ≠ [chars "A1", chars "A2", chars "B1", chars "B2"] := by
  decide

/-- C3 counterexample: the evaluator uppercases the whole expression, so the
    lookup literal becomes `"BOB"` and fails to match the stored text
    `"Bob"`; the claim's example evaluates to `#N/A`, not `"Manager"`. -/
theorem c3_counterexample :
    evaluateFormula exEnv (chars "=VLOOKUP(\"Bob\",A1:B3,2,FALSE)") (chars "D1")
        [(chars "A1", mkCell "Bob"), (chars "B1", mkCell "Manager")] = navail ∧
    navail ≠ chars "Manager" := by
  decide

/-- C4 counterexample: the branch strings are uppercased with the rest of the
    expression, so the claim's example returns `"BIG"`, not `"big"`. -/
theorem c4_counterexample :
    evaluateFormula exEnv (chars "=IF(A1>5,\"big\",\"small\")") (chars "D1")
        [(chars "A1", mkCell "10")] = chars "BIG" ∧
    chars "BIG" ≠ chars "big" := by
  decide

/-- C6 counterexample: `parseCellReference` matches its regex
    case-sensitively — the source neither uppercases the input nor uses the
    `i` flag — so the lowercase reference `"b2"` yields `null`, not
    coordinates. -/
theorem c6_counterexample : parseCellReference (chars "b2") = none := by decide

/-- C8 counterexample: `=NOW()` reads the ambient clock/locale, so two calls
    with identical (formula, cell id, store) arguments but different ambient
    states disagree — evaluation is not a pure function of the three
    arguments alone. -/
theorem c8_counterexample :
    evaluateFormula exEnv (chars "=NOW()") (chars "A1") [] ≠
      evaluateFormula exEnv2 (chars "=NOW()") (chars "A1") [] := by
  decide

/-- C10 counterexample: with a match in the first row of `A1:B3` and
    `columnIndex = 3 > numCols = 2`, the flat index `0*2+3-1 = 2` is still in
    range and addresses `A2` — the next row's first column — so the evaluator
    returns that cell's text `"XYZ"`, not the empty string the claim
    asserts. -/
theorem c10_counterexample :
    evaluateFormula exEnv (chars "=VLOOKUP(\"BOB\",A1:B3,3,FALSE)") (chars "D1")
        [(chars "A1", mkCell "BOB"), (chars "A2", mkCell "XYZ")] = chars "XYZ" ∧
    chars "XYZ" ≠ ([] : JStr) := by
  decide

/-- A prefix test succeeds exactly on an append decomposition. -/
theorem jsStartsWith_iff {p l : JStr} : jsStartsWith p l = true ↔ ∃ t, l = p ++ t := by
  induction p generalizing l with
  | nil => simp [jsStartsWith]
  | cons a as ih =>
    cases l with
    | nil => simp [jsStartsWith]
    | cons c cs =>
      simp only [jsStartsWith, Bool.and_eq_true, decide_eq_true_eq, ih, List.cons_append]
      constructor
      · rintro ⟨rfl, t, rfl⟩; exact ⟨t, rfl⟩
      · rintro ⟨t, h⟩
        injection h with h1 h2
        exact ⟨h1.symm, t, h2⟩

/-- A string ending in a literal right parenthesis passes `endsWith(')')`. -/
theorem endsParen_concat (l : JStr) : endsParen (l ++ [')']) = true := by
  simp [endsParen, List.getLast?_concat]

/-- `trim` is the identity on a string with non-space first and last
    characters. -/
theorem jsTrim_of_ends {c d : Char} (m : JStr) (hc : isWsB c = false)
    (hd : isWsB d = false) : jsTrim (c :: (m ++ [d])) = c :: (m ++ [d]) := by
  simp [jsTrim, List.dropWhile_cons, hc, hd, List.reverse_append]

/-- `find?` over `range n` finds the least index satisfying the predicate. -/
theorem findRange_eq_some {p : Nat → Bool} {n r : Nat} (h1 : r < n) (h2 : p r = true)
    (h3 : ∀ k, k < r → p k = false) : (List.range n).find? p = some r := by
  induction n with
  | zero => omega
  | succ m ih =>
    rw [List.range_succ, List.find?_append]
    rcases Nat.lt_or_ge r m with hlt | hge
    · rw [ih hlt]; rfl
    · have hrm : r = m := by omega
      subst hrm
      have hnone : (List.range r).find? p = none := by
        rw [List.find?_eq_none]
        intro x hx
        simp only [List.mem_range] at hx
        simp [h3 x hx]
      rw [hnone]
      simp [List.find?, h2]

/-- `find?` over `range n` fails when no index satisfies the predicate. -/
theorem findRange_eq_none {p : Nat → Bool} {n : Nat} (h : ∀ k, k < n → p k = false) :
    (List.range n).find? p = none := by
  rw [List.find?_eq_none]
  intro x hx
  simp only [List.mem_range] at hx
  simp [h x hx]

/-- `split` on a separator-free string is one piece. -/
theorem jsSplit_of_not_mem {sep : Char} {l : JStr} (h : sep ∉ l) : jsSplit sep l = [l] := by
  induction l with
  | nil => rfl
  | cons c cs ih =>
    simp only [List.mem_cons, not_or] at h
    rw [jsSplit, if_neg (fun hc => h.1 hc.symm), ih h.2]

/-- `split` at the first separator of `s ++ sep :: e` when `s` is
    separator-free. -/
theorem jsSplit_append {sep : Char} {s e : JStr} (h : sep ∉ s) :
    jsSplit sep (s ++ sep :: e) = s :: jsSplit sep e := by
  induction s with
  | nil => simp [jsSplit]
  | cons c cs ih =>
    simp only [List.mem_cons, not_or] at h
    rw [List.cons_append, jsSplit, if_neg (fun hc => h.1 hc.symm), ih h.2]

/-- `takeWhile`/`dropWhile` split an all-true prefix followed by a failing
    head. -/
theorem takeWhile_split {p : Char → Bool} {l1 : JStr} {d : Char} {ds : JStr}
    (h1 : ∀ c ∈ l1, p c = true) (h2 : p d = false) :
    (l1 ++ d :: ds).takeWhile p = l1 ∧ (l1 ++ d :: ds).dropWhile p = d :: ds := by
  induction l1 with
  | nil => simp [List.takeWhile_cons, List.dropWhile_cons, h2]
  | cons c cs ih =>
    have hc : p c = true := h1 c (List.mem_cons_self c cs)
    have hrest := ih (fun x hx => h1 x (List.mem_cons_of_mem c hx))
    simp [List.takeWhile_cons, List.dropWhile_cons, hc, hrest.1, hrest.2]

/-- Digits are not upper-case letters. -/
theorem upper_of_digit_false {c : Char} (h : isDigitB c = true) : isUpperB c = false := by
  simp only [isDigitB, isUpperB, decide_eq_true_eq] at *
  simp only [decide_eq_false_iff_not]
  omega

/-- Characterization of a successful reference parse: the input decomposes
    into a non-empty upper-case part followed by a non-empty digit part, and
    the result decodes them as in the source. -/
theorem parseCellReference_eq_some_iff {ref : JStr} {r : CellRef} :
    parseCellReference ref = some r ↔
      ∃ cs ds, ref = cs ++ ds ∧ cs ≠ [] ∧ ds ≠ [] ∧
        (∀ c ∈ cs, isUpperB c = true) ∧ (∀ c ∈ ds, isDigitB c = true) ∧
        r = ⟨lettersToNum cs - 1, (digitsToNat ds : Int) - 1⟩ := by
  constructor
  · intro h
    simp only [parseCellReference] at h
    split at h
    · exact absurd h (by simp)
    · split at h
      · exact absurd h (by simp)
      · split at h
        · refine ⟨ref.takeWhile isUpperB, ref.dropWhile isUpperB,
            (List.takeWhile_append_dropWhile isUpperB ref).symm, ?_, ?_, ?_, ?_, ?_⟩
          · next hq _ _ => exact fun he => hq (by simp [he])
          · next _ hq _ => exact fun he => hq (by simp [he])
          · exact fun c hc => List.mem_takeWhile_imp hc
          · next hall => exact fun c hc => List.all_eq_true.mp hall c hc
          · injection h with h2
            exact h2.symm
        · exact absurd h (by simp)
  · rintro ⟨cs, ds, rfl, hcs, hds, hup, hdig, rfl⟩
    obtain ⟨d, ds2, rfl⟩ : ∃ d ds2, ds = d :: ds2 := by
      cases ds with
      | nil => exact absurd rfl hds
      | cons d ds2 => exact ⟨d, ds2, rfl⟩
    obtain ⟨c0, cs0, rfl⟩ : ∃ c0 cs0, cs = c0 :: cs0 := by
      cases cs with
      | nil => exact absurd rfl hcs
      | cons c0 cs0 => exact ⟨c0, cs0, rfl⟩
    have hsplit := @takeWhile_split isUpperB (c0 :: cs0) d ds2 hup
      (upper_of_digit_false (hdig d (by simp)))
    simp only [parseCellReference, hsplit.1, hsplit.2, List.length_cons]
    rw [if_neg (Nat.succ_ne_zero _), if_neg (Nat.succ_ne_zero _),
      if_pos (List.all_eq_true.mpr hdig)]

/-- C6, amended: `parseCellReference` matches its input against
    `^[A-Z]+[0-9]+$` case-sensitively (the source has no `i` flag and does
    not uppercase inside the function, so lowercase references like `"b2"`
    return `null`), and it returns `null` — never throwing — for exactly the
    strings that do not decompose as non-empty upper-case letters followed by
    non-empty digits. -/
theorem c6_amended (ref : JStr) :
    (∃ r, parseCellReference ref = some r) ↔
      ∃ cs ds, ref = cs ++ ds ∧ cs ≠ [] ∧ ds ≠ [] ∧
        (∀ c ∈ cs, isUpperB c = true) ∧ (∀ c ∈ ds, isDigitB c = true) := by
  constructor
  · rintro ⟨r, hr⟩
    obtain ⟨cs, ds, h1, h2, h3, h4, h5, _⟩ := parseCellReference_eq_some_iff.mp hr
    exact ⟨cs, ds, h1, h2, h3, h4, h5⟩
  · rintro ⟨cs, ds, h1, h2, h3, h4, h5⟩
    exact ⟨_, parseCellReference_eq_some_iff.mpr ⟨cs, ds, h1, h2, h3, h4, h5, rfl⟩⟩

/-- The column-label loop is insensitive to its fuel once the fuel exceeds
    the argument (the argument strictly decreases at each step). -/
theorem fmtColAux_fuel {f1 f2 n : Nat} (h1 : n < f1) (h2 : n < f2) :
    fmtColAux f1 n = fmtColAux f2 n := by
  induction f1 generalizing f2 n with
  | zero => omega
  | succ m ih =>
    cases f2 with
    | zero => omega
    | succ m2 =>
      rw [fmtColAux, fmtColAux]
      by_cases hn : n < 26
      · simp [hn]
      · have hself := Nat.div_le_self n 26
        rw [if_neg hn, if_neg hn,
          ih (show n / 26 - 1 < m by omega) (show n / 26 - 1 < m2 by omega)]

/-- A non-empty upper-case letter string decodes to at least 1 (each digit of
    the base-26 code is at least 1). -/
theorem lettersFold_ge {l : JStr} (a : Nat) :
    a ≤ l.foldl (fun a c => a * 26 + (c.toNat - 64)) a := by
  induction l generalizing a with
  | nil => exact Nat.le_refl a
  | cons c cs ih =>
    calc a ≤ a * 26 + (c.toNat - 64) := by
            have := Nat.le_mul_of_pos_right a (show 0 < 26 by omega)
            omega
      _ ≤ _ := by simpa [List.foldl_cons] using ih (a * 26 + (c.toNat - 64))

/-- The decoded column code of a non-empty letter string is positive. -/
theorem lettersToNum_ge_one {l : JStr} (hne : l ≠ [])
    (hup : ∀ c ∈ l, isUpperB c = true) : 1 ≤ lettersToNum l := by
  cases l with
  | nil => exact absurd rfl hne
  | cons c cs =>
    have hc : isUpperB c = true := hup c (List.mem_cons_self c cs)
    have hc65 : 65 ≤ c.toNat := by
      have := of_decide_eq_true hc
      omega
    have : (1 : Nat) ≤ 0 * 26 + (c.toNat - 64) := by omega
    calc (1 : Nat) ≤ 0 * 26 + (c.toNat - 64) := this
      _ ≤ _ := by simpa [lettersToNum, List.foldl_cons] using lettersFold_ge (0 * 26 + (c.toNat - 64))

/-- Round-trip of the column-label loop against the base-26 decoding of
    `parseCellReference`, for any sufficient fuel. -/
theorem fmt_letters {l : JStr} (hne : l ≠ []) (hup : ∀ c ∈ l, isUpperB c = true)
    {fuel : Nat} (hf : lettersToNum l - 1 < fuel) :
    fmtColAux fuel (lettersToNum l - 1) = l := by
  induction l using List.reverseRecOn generalizing fuel with
  | nil => exact absurd rfl hne
  | append_singleton l c ih =>
    cases fuel with
    | zero => omega
    | succ f =>
      have hc : isUpperB c = true := hup c (by simp)
      have hc65 : 65 ≤ c.toNat ∧ c.toNat ≤ 90 := by
        have := of_decide_eq_true hc
        exact this
      have hdec : lettersToNum (l ++ [c]) = lettersToNum l * 26 + (c.toNat - 64) := by
        simp [lettersToNum, List.foldl_append]
      by_cases hl : l = []
      · subst hl
        have hval : lettersToNum ([] ++ [c]) - 1 = c.toNat - 65 := by
          have h0 : lettersToNum ([] : JStr) = 0 := rfl
          simp only [List.nil_append] at hdec ⊢
          omega
        rw [hval, fmtColAux, if_pos (by omega)]
        have hm : (c.toNat - 65) % 26 = c.toNat - 65 := Nat.mod_eq_of_lt (by omega)
        have hchar : 65 + (c.toNat - 65) = c.toNat := by omega
        simp [hm, hchar, Char.ofNat_toNat]
      · have hL1 : 1 ≤ lettersToNum l :=
          lettersToNum_ge_one hl (fun x hx => hup x (by simp [hx]))
        have hn : lettersToNum (l ++ [c]) - 1 = lettersToNum l * 26 + (c.toNat - 65) := by
          omega
        rw [hn, fmtColAux, if_neg (by omega)]
        have hdiv : (lettersToNum l * 26 + (c.toNat - 65)) / 26 = lettersToNum l := by
          rw [Nat.mul_comm, Nat.mul_add_div (by omega)]
          have : (c.toNat - 65) / 26 = 0 := Nat.div_eq_of_lt (by omega)
          omega
        have hmod : (lettersToNum l * 26 + (c.toNat - 65)) % 26 = c.toNat - 65 := by
          rw [Nat.mul_comm, Nat.mul_add_mod]
          exact Nat.mod_eq_of_lt (by omega)
        have hchar : Char.ofNat (65 + (c.toNat - 65)) = c := by
          have h65 : 65 + (c.toNat - 65) = c.toNat := by omega
          rw [h65, Char.ofNat_toNat]
        rw [hdiv, hmod, hchar]
        have hfl : lettersToNum l - 1 < f := by
          have : lettersToNum l ≤ lettersToNum l * 26 := Nat.le_mul_of_pos_right _ (by omega)
          omega
        rw [ih hl (fun x hx => hup x (by simp [hx])) hfl]

/-- C5: for every valid cell reference, `formatColumnLabel` applied to the
    column index produced by `parseCellReference` yields exactly the
    column-letter portion of the reference; and concretely index 0 formats to
    "A", 25 to "Z", 26 to "AA" — the base-26 decoding with A=1..Z=26 and the
    label formatting are mutually inverse. -/
theorem c5_roundtrip :
    (∀ (ref : JStr) (r : CellRef), parseCellReference ref = some r →
      formatColumnLabel r.col = ref.takeWhile isUpperB) ∧
    formatColumnLabel 0 = chars "A" ∧ formatColumnLabel 25 = chars "Z" ∧
    formatColumnLabel 26 = chars "AA" := by
  refine ⟨?_, by decide, by decide, by decide⟩
  intro ref r hr
  obtain ⟨cs, ds, rfl, hcs, hds, hup, hdig, rfl⟩ := parseCellReference_eq_some_iff.mp hr
  obtain ⟨d, ds2, rfl⟩ : ∃ d ds2, ds = d :: ds2 := by
    cases ds with
    | nil => exact absurd rfl hds
    | cons d ds2 => exact ⟨d, ds2, rfl⟩
  have hsplit := @takeWhile_split isUpperB cs d ds2 hup
    (upper_of_digit_false (hdig d (by simp)))
  rw [hsplit.1]
  exact fmt_letters hcs hup (Nat.lt_succ_self _)

/-- C5 witness: the round-trip applied at the concrete reference "AA7". -/
theorem c5_witness :
    parseCellReference (chars "AA7") = some ⟨26, 6⟩ ∧
      formatColumnLabel 26 = (chars "AA7").takeWhile isUpperB :=
  ⟨by decide, c5_roundtrip.1 (chars "AA7") ⟨26, 6⟩ (by decide)⟩

/-- A parseable reference contains no colon (its characters are upper-case
    letters and digits only). -/
theorem colon_not_mem_of_parse {s : JStr} {r : CellRef}
    (h : parseCellReference s = some r) : ':' ∉ s := by
  obtain ⟨cs, ds, rfl, _, _, hup, hdig, _⟩ := parseCellReference_eq_some_iff.mp h
  intro hmem
  rcases List.mem_append.mp hmem with h1 | h1
  · exact absurd (hup _ h1) (by decide)
  · exact absurd (hdig _ h1) (by decide)

/-- C2, amended: `parseRange` enumerates the rectangle row-major from the
    first corner to the second without min/max normalization: when the first
    corner's row or column exceeds the second's the result is empty; in
    particular `expandRange("A1:A1") = ["A1"]` and `expandRange("A1:B2") =
    ["A1","B1","A2","B2"]` (row-major), while `expandRange("B2:A1") = []`
    rather than the normalized rectangle. -/
theorem c2_amended :
    (∀ (s e : JStr) (rs re : CellRef),
      parseCellReference s = some rs → parseCellReference e = some re →
      re.row < rs.row ∨ re.col < rs.col →
      parseRange (s ++ ':' :: e) = []) ∧
    parseRange (chars "A1:A1") = [chars "A1"] ∧
    parseRange (chars "A1:B2") = [chars "A1", chars "B1", chars "A2", chars "B2"] := by
  refine ⟨?_, by decide, by decide⟩
  intro s e rs re hs he hlt
  have hns : ':' ∉ s := colon_not_mem_of_parse hs
  have hne : ':' ∉ e := colon_not_mem_of_parse he
  have hsplit : jsSplit ':' (s ++ ':' :: e) = [s, e] := by
    rw [jsSplit_append hns, jsSplit_of_not_mem hne]
  obtain ⟨cs, ds, hseq, hcs, -, -, -, -⟩ := parseCellReference_eq_some_iff.mp hs
  obtain ⟨cs2, ds2, heeq, hcs2, -, -, -, -⟩ := parseCellReference_eq_some_iff.mp he
  have hslen : s.length ≠ 0 := by
    rw [hseq]
    cases cs with
    | nil => exact absurd rfl hcs
    | cons a b => simp
  have helen : e.length ≠ 0 := by
    rw [heeq]
    cases cs2 with
    | nil => exact absurd rfl hcs2
    | cons a b => simp
  simp only [parseRange, hsplit, if_neg (not_or.mpr ⟨hslen, helen⟩), hs, he]
  rcases hlt with h | h
  · have hrow : intRange rs.row re.row = [] := by
      unfold intRange
      have hz : (re.row + 1 - rs.row).toNat = 0 := by omega
      rw [hz]
      rfl
    rw [hrow]
    rfl
  · have hcol : natRange rs.col re.col = [] := by
      unfold natRange
      have hz : re.col + 1 - rs.col = 0 := by omega
      rw [hz]
      rfl
    simp [hcol]

/-- C2 witness: the general empty-range part applied at the reversed corner
    pair `B2:A1`. -/
theorem c2_witness :
    parseCellReference (chars "B2") = some ⟨1, 1⟩ ∧
    parseCellReference (chars "A1") = some ⟨0, 0⟩ ∧
    ((0 : Int) < 1 ∨ (0 : Nat) < 1) ∧
    parseRange (chars "B2" ++ ':' :: chars "A1") = [] :=
  ⟨by decide, by decide, Or.inl (by decide),
    c2_amended.1 (chars "B2") (chars "A1") ⟨1, 1⟩ ⟨0, 0⟩ (by decide) (by decide)
      (Or.inl (by decide))⟩

/-- Evaluation of a formula string in terms of the try-block body applied to
    its trimmed, uppercased expression. -/
theorem evaluateFormula_eq_inner {env : JsEnv} {formula cid : JStr} {cells : CellStore}
    {E : JStr} (h1 : jsStartsWith (chars "=") formula = true)
    (h2 : jsToUpper (jsTrim (formula.drop 1)) = E) :
    evaluateFormula env formula cid cells =
      (match evalExprInner env E cells with
       | .ok s => s
       | .error _ => errStr) := by
  unfold evaluateFormula
  rw [if_pos h1, h2]

/-- Extracting an aggregate's range argument from a constructed expression. -/
theorem aggDrop {p rng : JStr} :
    ((p ++ (rng ++ [')'])).drop p.length).dropLast = rng := by
  rw [List.drop_left, List.dropLast_concat]

/-- C7: an `AVERAGE`, `MIN`, or `MAX` formula whose range expands to zero
    cells returns `"0"` (not an error), for every store; and `AVERAGE(A1:A1)`
    with `A1` empty returns `"0"` as well, the single empty cell counting as
    one cell of value 0. -/
theorem c7_empty_range_zero :
    (∀ (env : JsEnv) (cid : JStr) (cells : CellStore) (formula rng : JStr),
      jsStartsWith (chars "=") formula = true →
      jsToUpper (jsTrim (formula.drop 1)) = chars "AVERAGE(" ++ (rng ++ [')']) →
      parseRange rng = [] →
      evaluateFormula env formula cid cells = zeroStr) ∧
    (∀ (env : JsEnv) (cid : JStr) (cells : CellStore) (formula rng : JStr),
      jsStartsWith (chars "=") formula = true →
      jsToUpper (jsTrim (formula.drop 1)) = chars "MIN(" ++ (rng ++ [')']) →
      parseRange rng = [] →
      evaluateFormula env formula cid cells = zeroStr) ∧
    (∀ (env : JsEnv) (cid : JStr) (cells : CellStore) (formula rng : JStr),
      jsStartsWith (chars "=") formula = true →
      jsToUpper (jsTrim (formula.drop 1)) = chars "MAX(" ++ (rng ++ [')']) →
      parseRange rng = [] →
      evaluateFormula env formula cid cells = zeroStr) ∧
    (∀ (env : JsEnv) (cid : JStr) (cells : CellStore),
      getCellText (chars "A1") cells = [] →
      evaluateFormula env (chars "=AVERAGE(A1:A1)") cid cells = zeroStr) := by
  refine ⟨?_, ?_, ?_, ?_⟩
  · intro env cid cells formula rng h1 h2 hrng
    rw [evaluateFormula_eq_inner h1 h2]
    have hparen : endsParen (chars "AVERAGE(" ++ (rng ++ [')'])) = true := by
      rw [← List.append_assoc]
      exact endsParen_concat _
    have hagg : aggTextStage (chars "AVERAGE(" ++ (rng ++ [')'])) cells =
        some (.ok (avgVal (((chars "AVERAGE(" ++ (rng ++ [')'])).drop 8).dropLast) cells)) := by
      unfold aggTextStage
      rw [if_neg (fun h => Bool.noConfusion h.1)]
      rw [if_pos ⟨rfl, hparen⟩]
    unfold evalExprInner
    rw [hagg]
    show avgVal (((chars "AVERAGE(" ++ (rng ++ [')'])).drop 8).dropLast) cells = zeroStr
    have hd : ((chars "AVERAGE(" ++ (rng ++ [')'])).drop 8).dropLast = rng :=
      @aggDrop (chars "AVERAGE(") rng
    rw [hd]
    unfold avgVal
    rw [hrng]
    rfl
  · intro env cid cells formula rng h1 h2 hrng
    rw [evaluateFormula_eq_inner h1 h2]
    have hparen : endsParen (chars "MIN(" ++ (rng ++ [')'])) = true := by
      rw [← List.append_assoc]
      exact endsParen_concat _
    have hagg : aggTextStage (chars "MIN(" ++ (rng ++ [')'])) cells =
        some (.ok (minVal (((chars "MIN(" ++ (rng ++ [')'])).drop 4).dropLast) cells)) := by
      unfold aggTextStage
      rw [if_neg (fun h => Bool.noConfusion h.1)]
      rw [if_neg (fun h => Bool.noConfusion h.1)]
      rw [if_pos ⟨rfl, hparen⟩]
    unfold evalExprInner
    rw [hagg]
    show minVal (((chars "MIN(" ++ (rng ++ [')'])).drop 4).dropLast) cells = zeroStr
    have hd : ((chars "MIN(" ++ (rng ++ [')'])).drop 4).dropLast = rng :=
      @aggDrop (chars "MIN(") rng
    rw [hd]
    unfold minVal
    rw [hrng]
    rfl
  · intro env cid cells formula rng h1 h2 hrng
    rw [evaluateFormula_eq_inner h1 h2]
    have hparen : endsParen (chars "MAX(" ++ (rng ++ [')'])) = true := by
      rw [← List.append_assoc]
      exact endsParen_concat _
    have hagg : aggTextStage (chars "MAX(" ++ (rng ++ [')'])) cells =
        some (.ok (maxVal (((chars "MAX(" ++ (rng ++ [')'])).drop 4).dropLast) cells)) := by
      unfold aggTextStage
      rw [if_neg (fun h => Bool.noConfusion h.1)]
      rw [if_neg (fun h => Bool.noConfusion h.1)]
      rw [if_neg (fun h => Bool.noConfusion h.1)]
      rw [if_pos ⟨rfl, hparen⟩]
    unfold evalExprInner
    rw [hagg]
    show maxVal (((chars "MAX(" ++ (rng ++ [')'])).drop 4).dropLast) cells = zeroStr
    have hd : ((chars "MAX(" ++ (rng ++ [')'])).drop 4).dropLast = rng :=
      @aggDrop (chars "MAX(") rng
    rw [hd]
    unfold maxVal
    rw [hrng]
    rfl
  · intro env cid cells h
    have hv : getCellValue (chars "A1") cells = qZero := by
      unfold getCellText at h
      unfold getCellValue
      cases hl : lookupCell cells (chars "A1") with
      | none => rfl
      | some cd =>
        rw [hl] at h
        have h2 : effText cd = [] := h
        show (match parseFloatJS (effText cd) with
              | some q => q
              | none => qZero) = qZero
        rw [h2]
        rfl
    rw [evaluateFormula_eq_inner (by decide)
      (show jsToUpper (jsTrim ((chars "=AVERAGE(A1:A1)").drop 1)) =
        chars "AVERAGE(A1:A1)" by decide)]
    have hstep : evalExprInner env (chars "AVERAGE(A1:A1)") cells =
        .ok (avgVal (chars "A1:A1") cells) := rfl
    rw [hstep]
    show avgVal (chars "A1:A1") cells = zeroStr
    unfold avgVal
    have hids : parseRange (chars "A1:A1") = [chars "A1"] := by decide
    rw [hids]
    rw [if_neg (by simp)]
    unfold sumCells
    simp only [List.foldl_cons, List.foldl_nil]
    rw [hv]
    rfl

/-- C7 witness: the empty-range part at the degenerate range `"X"` (which
    expands to no cells) and the single-empty-cell part on the empty store. -/
theorem c7_witness :
    jsStartsWith (chars "=") (chars "=MIN(X)") = true ∧
    jsToUpper (jsTrim ((chars "=MIN(X)").drop 1)) = chars "MIN(" ++ (chars "X" ++ [')']) ∧
    parseRange (chars "X") = [] ∧
    getCellText (chars "A1") [] = [] ∧
    evaluateFormula exEnv (chars "=MIN(X)") (chars "D1") [] = zeroStr ∧
    evaluateFormula exEnv (chars "=AVERAGE(A1:A1)") (chars "D1") [] = zeroStr :=
  ⟨by decide, by decide, by decide, by decide,
    c7_empty_range_zero.2.1 exEnv (chars "D1") [] (chars "=MIN(X)") (chars "X")
      (by decide) (by decide) (by decide),
    c7_empty_range_zero.2.2.2 exEnv (chars "D1") [] (by decide)⟩

/-- The try-block body reads the ambient state only in the `TODAY()` and
    `NOW()` branches. -/
theorem evalExprInner_env {E : JStr} (cells : CellStore) (env1 env2 : JsEnv)
    (h1 : E ≠ chars "TODAY()") (h2 : E ≠ chars "NOW()") :
    evalExprInner env1 E cells = evalExprInner env2 E cells := by
  unfold evalExprInner
  cases aggTextStage E cells with
  | some r => rfl
  | none => rw [if_neg h1, if_neg h2, if_neg h1, if_neg h2]

/-- C8, amended: evaluation is a pure function of (formula, current cell id,
    cell store) together with the ambient clock/locale, and the ambient part
    is read only by `TODAY()`/`NOW()`: for every formula whose uppercased
    trimmed expression is neither `TODAY()` nor `NOW()`, the result is
    independent of the ambient state. -/
theorem c8_amended (formula cid : JStr) (cells : CellStore) (env1 env2 : JsEnv)
    (h1 : jsToUpper (jsTrim (formula.drop 1)) ≠ chars "TODAY()")
    (h2 : jsToUpper (jsTrim (formula.drop 1)) ≠ chars "NOW()") :
    evaluateFormula env1 formula cid cells = evaluateFormula env2 formula cid cells := by
  unfold evaluateFormula
  cases hs : jsStartsWith (chars "=") formula with
  | false => simp [hs]
  | true =>
    simp only [hs]
    rw [evalExprInner_env cells env1 env2 h1 h2]

/-- C8 witness: the amended independence applied to the arithmetic formula
    `=1+1`. -/
theorem c8_witness :
    jsToUpper (jsTrim ((chars "=1+1").drop 1)) ≠ chars "TODAY()" ∧
    jsToUpper (jsTrim ((chars "=1+1").drop 1)) ≠ chars "NOW()" ∧
    evaluateFormula exEnv (chars "=1+1") (chars "A1") [] =
      evaluateFormula exEnv2 (chars "=1+1") (chars "A1") [] :=
  ⟨by decide, by decide,
    c8_amended (chars "=1+1") (chars "A1") [] exEnv exEnv2 (by decide) (by decide)⟩

/-- C4, amended: for every store, an `IF` formula whose condition matches the
    comparison pattern against a parseable number returns the quote-stripped
    (and, like the whole expression, uppercased) `trueVal` when the
    comparison holds, and the quote-stripped uppercased `falseVal` otherwise;
    the claim's example returns `"BIG"` for `A1 = 10` and `"SMALL"` for
    `A1 = 3`. -/
theorem c4_amended (env : JsEnv) (cells : CellStore)
    (cid formula c tv fv ref op rhs : JStr) (q : Q)
    (h1 : jsStartsWith (chars "=") formula = true)
    (h2 : ifMatch (jsToUpper (jsTrim (formula.drop 1))) = some (c, tv, fv))
    (h3 : compMatchFn (jsTrim c) = some (ref, op, rhs))
    (h4 : parseFloatJS rhs = some q) :
    evaluateFormula env formula cid cells =
      if jsCompare op (getCellValue ref cells) (some q) = true
      then stripQuotes (jsTrim tv)
      else stripQuotes (jsTrim fv) := by
  set E := jsToUpper (jsTrim (formula.drop 1)) with hE
  rw [evaluateFormula_eq_inner h1 hE.symm]
  have hpre : jsStartsWith (chars "IF(") E = true := by
    by_cases hc : jsStartsWith (chars "IF(") E = true ∧ endsParen E = true
    · exact hc.1
    · rw [ifMatch, if_neg hc] at h2
      exact absurd h2 (by simp)
  obtain ⟨t, ht⟩ := jsStartsWith_iff.mp hpre
  have hagg : aggTextStage E cells = none := by
    rw [ht]
    unfold aggTextStage
    rw [if_neg (fun h => Bool.noConfusion h.1)]
    rw [if_neg (fun h => Bool.noConfusion h.1)]
    rw [if_neg (fun h => Bool.noConfusion h.1)]
    rw [if_neg (fun h => Bool.noConfusion h.1)]
    rw [if_neg (fun h => Bool.noConfusion h.1)]
    rw [if_neg (fun h => Bool.noConfusion h.1)]
    rw [if_neg (fun h => Bool.noConfusion h.1)]
    rw [if_neg (fun h => Bool.noConfusion h.1)]
    rw [if_neg (fun h => Bool.noConfusion h.1)]
    rw [if_neg (fun h => Bool.noConfusion h.1)]
    rw [if_neg (fun h => Bool.noConfusion h.1)]
  have hT : E ≠ chars "TODAY()" := by
    rw [ht]
    show ('I' :: 'F' :: '(' :: t) ≠ chars "TODAY()"
    intro hx
    injection hx with hx1 _
    exact absurd hx1 (by decide)
  have hN : E ≠ chars "NOW()" := by
    rw [ht]
    show ('I' :: 'F' :: '(' :: t) ≠ chars "NOW()"
    intro hx
    injection hx with hx1 _
    exact absurd hx1 (by decide)
  unfold evalExprInner
  rw [hagg, if_neg hT, if_neg hN]
  unfold ifStage
  rw [h2]
  simp only []
  rw [h3]
  simp only []
  rw [h4]

/-- C4 witness: the amended `IF` semantics applied at the claim's example
    with `A1 = 3`, yielding `"SMALL"`. -/
theorem c4_witness :
    jsStartsWith (chars "=") (chars "=IF(A1>5,\"big\",\"small\")") = true ∧
    ifMatch (jsToUpper (jsTrim ((chars "=IF(A1>5,\"big\",\"small\")").drop 1))) =
      some (chars "A1>5", chars "\"BIG\"", chars "\"SMALL\"") ∧
    compMatchFn (jsTrim (chars "A1>5")) = some (chars "A1", chars ">", chars "5") ∧
    parseFloatJS (chars "5") = some ⟨5, 1⟩ ∧
    evaluateFormula exEnv (chars "=IF(A1>5,\"big\",\"small\")") (chars "D1")
      [(chars "A1", mkCell "3")] = chars "SMALL" :=
  ⟨by decide, by decide, by decide, by decide,
    (c4_amended exEnv [(chars "A1", mkCell "3")] (chars "D1")
        (chars "=IF(A1>5,\"big\",\"small\")") (chars "A1>5") (chars "\"BIG\"")
        (chars "\"SMALL\"") (chars "A1") (chars ">") (chars "5") ⟨5, 1⟩
        (by decide) (by decide) (by decide) (by decide)).trans (by decide)⟩

/-- A flat index at or past the end of the cell list reads as empty text
    (JS `undefined` key misses the map). -/
theorem cellTextAtI_out {ids : List JStr} {i : Int} {cells : CellStore}
    (h : (ids.length : Int) ≤ i) : cellTextAtI ids i cells = [] := by
  unfold cellTextAtI
  rw [if_neg (by omega)]
  unfold cellTextAtN
  have hnone : ids[i.toNat]? = none := by
    rw [List.getElem?_eq_none]
    omega
  rw [hnone]

/-- A formula whose uppercased expression matches the `VLOOKUP` regex
    evaluates through `vlookupBody` (all earlier branches miss). -/
theorem vlookup_eval (env : JsEnv) (cells : CellStore) (cid formula g1 g2 g3 g4 : JStr)
    (h1 : jsStartsWith (chars "=") formula = true)
    (h2 : vlookupMatch (jsToUpper (jsTrim (formula.drop 1))) = some (g1, g2, g3, g4)) :
    evaluateFormula env formula cid cells =
      (match vlookupBody g1 g2 g3 cells with
       | .ok s => s
       | .error _ => errStr) := by
  set E := jsToUpper (jsTrim (formula.drop 1)) with hE
  rw [evaluateFormula_eq_inner h1 hE.symm]
  have hpre : jsStartsWith (chars "VLOOKUP(") E = true := by
    by_cases hc : jsStartsWith (chars "VLOOKUP(") E = true ∧ endsParen E = true
    · exact hc.1
    · rw [vlookupMatch, if_neg hc] at h2
      exact absurd h2 (by simp)
  obtain ⟨t, ht⟩ := jsStartsWith_iff.mp hpre
  have hagg : aggTextStage E cells = none := by
    rw [ht]
    unfold aggTextStage
    rw [if_neg (fun h => Bool.noConfusion h.1)]
    rw [if_neg (fun h => Bool.noConfusion h.1)]
    rw [if_neg (fun h => Bool.noConfusion h.1)]
    rw [if_neg (fun h => Bool.noConfusion h.1)]
    rw [if_neg (fun h => Bool.noConfusion h.1)]
    rw [if_neg (fun h => Bool.noConfusion h.1)]
    rw [if_neg (fun h => Bool.noConfusion h.1)]
    rw [if_neg (fun h => Bool.noConfusion h.1)]
    rw [if_neg (fun h => Bool.noConfusion h.1)]
    rw [if_neg (fun h => Bool.noConfusion h.1)]
    rw [if_neg (fun h => Bool.noConfusion h.1)]
  have hT : E ≠ chars "TODAY()" := by
    rw [ht]
    show ('V' :: 'L' :: 'O' :: 'O' :: 'K' :: 'U' :: 'P' :: '(' :: t) ≠ chars "TODAY()"
    intro hx
    injection hx with hx1 _
    exact absurd hx1 (by decide)
  have hN : E ≠ chars "NOW()" := by
    rw [ht]
    show ('V' :: 'L' :: 'O' :: 'O' :: 'K' :: 'U' :: 'P' :: '(' :: t) ≠ chars "NOW()"
    intro hx
    injection hx with hx1 _
    exact absurd hx1 (by decide)
  have hifm : ifMatch E = none := by
    rw [ht]
    rfl
  unfold evalExprInner
  rw [hagg, if_neg hT, if_neg hN]
  unfold ifStage
  rw [hifm]
  simp only []
  unfold afterIf
  rw [h2]

/-- The `VLOOKUP` branch on a well-formed range whose first matching row is
    `r` returns the text at the flat index `r * numCols + columnIndex - 1`. -/
theorem vlookup_found (env : JsEnv) (cells : CellStore)
    (cid formula g1 g2 g3 g4 s e : JStr) (sr er : CellRef) (r : Nat)
    (h1 : jsStartsWith (chars "=") formula = true)
    (h2 : vlookupMatch (jsToUpper (jsTrim (formula.drop 1))) = some (g1, g2, g3, g4))
    (hsp : jsSplit ':' g2 = [s, e])
    (hs : parseCellReference s = some sr)
    (he : parseCellReference e = some er)
    (hr : r < (parseRange g2).length / ((er.col : Int) + 1 - (sr.col : Int)).toNat)
    (hit : cellTextAtN (parseRange g2)
        (r * ((er.col : Int) + 1 - (sr.col : Int)).toNat) cells = stripQuotes (jsTrim g1))
    (hfirst : ∀ r2, r2 < r → cellTextAtN (parseRange g2)
        (r2 * ((er.col : Int) + 1 - (sr.col : Int)).toNat) cells ≠ stripQuotes (jsTrim g1)) :
    evaluateFormula env formula cid cells =
      cellTextAtI (parseRange g2)
        ((r : Int) * (((er.col : Int) + 1 - (sr.col : Int)).toNat : Int) +
          (digitsToNat g3 : Int) - 1) cells := by
  rw [vlookup_eval env cells cid formula g1 g2 g3 g4 h1 h2]
  have hlen : (parseRange g2).length ≠ 0 := by
    intro hz
    rw [hz] at hr
    simp at hr
  simp only [vlookupBody]
  rw [if_neg hlen, hsp]
  simp only [List.getElem?_cons_zero, List.getElem?_cons_succ]
  rw [hs, he]
  simp only []
  rw [findRange_eq_some hr (decide_eq_true hit)
    (fun k hk => decide_eq_false (hfirst k hk))]

/-- C3, amended: the lookup literal is uppercased with the whole expression,
    so the scan compares each first-column cell text against the
    quote-stripped uppercased lookup value: when some row matches, the first
    matching row's 1-based target column text is returned; `#N/A` is returned
    when no row matches or the range is malformed. The claim's example only
    succeeds with upper-case stored data (`A1="BOB"`, `B1="MANAGER"` gives
    `"MANAGER"`); with `A1="Bob"` it yields `#N/A`. -/
theorem c3_amended (env : JsEnv) (cells : CellStore) (cid formula g1 g2 g3 g4 : JStr)
    (h1 : jsStartsWith (chars "=") formula = true)
    (h2 : vlookupMatch (jsToUpper (jsTrim (formula.drop 1))) = some (g1, g2, g3, g4)) :
    (parseRange g2 = [] → evaluateFormula env formula cid cells = navail) ∧
    (∀ (s e : JStr) (sr er : CellRef),
      jsSplit ':' g2 = [s, e] →
      parseCellReference s = some sr →
      parseCellReference e = some er →
      (∀ r, r < (parseRange g2).length / ((er.col : Int) + 1 - (sr.col : Int)).toNat →
        cellTextAtN (parseRange g2)
          (r * ((er.col : Int) + 1 - (sr.col : Int)).toNat) cells ≠
          stripQuotes (jsTrim g1)) →
      evaluateFormula env formula cid cells = navail) ∧
    (∀ (s e : JStr) (sr er : CellRef) (r : Nat),
      jsSplit ':' g2 = [s, e] →
      parseCellReference s = some sr →
      parseCellReference e = some er →
      r < (parseRange g2).length / ((er.col : Int) + 1 - (sr.col : Int)).toNat →
      cellTextAtN (parseRange g2)
        (r * ((er.col : Int) + 1 - (sr.col : Int)).toNat) cells =
        stripQuotes (jsTrim g1) →
      (∀ r2, r2 < r → cellTextAtN (parseRange g2)
        (r2 * ((er.col : Int) + 1 - (sr.col : Int)).toNat) cells ≠
        stripQuotes (jsTrim g1)) →
      evaluateFormula env formula cid cells =
        cellTextAtI (parseRange g2)
          ((r : Int) * (((er.col : Int) + 1 - (sr.col : Int)).toNat : Int) +
            (digitsToNat g3 : Int) - 1) cells) := by
  refine ⟨?_, ?_, ?_⟩
  · intro hr
    rw [vlookup_eval env cells cid formula g1 g2 g3 g4 h1 h2]
    simp only [vlookupBody]
    rw [hr]
    rfl
  · intro s e sr er hsp hs he hnone
    rw [vlookup_eval env cells cid formula g1 g2 g3 g4 h1 h2]
    simp only [vlookupBody]
    by_cases hlen : (parseRange g2).length = 0
    · rw [if_pos hlen]
    · rw [if_neg hlen, hsp]
      simp only [List.getElem?_cons_zero, List.getElem?_cons_succ]
      rw [hs, he]
      simp only []
      rw [findRange_eq_none (fun k hk => decide_eq_false (hnone k hk))]
  · intro s e sr er r hsp hs he hr hit hfirst
    exact vlookup_found env cells cid formula g1 g2 g3 g4 s e sr er r
      h1 h2 hsp hs he hr hit hfirst

/-- C3 witness: the amended `VLOOKUP` semantics at the claim's example with
    upper-case stored data, returning `"MANAGER"`. -/
theorem c3_witness :
    vlookupMatch (jsToUpper (jsTrim ((chars "=VLOOKUP(\"Bob\",A1:B3,2,FALSE)").drop 1))) =
      some (chars "\"BOB\"", chars "A1:B3", chars "2", chars "FALSE") ∧
    jsSplit ':' (chars "A1:B3") = [chars "A1", chars "B3"] ∧
    parseCellReference (chars "A1") = some ⟨0, 0⟩ ∧
    parseCellReference (chars "B3") = some ⟨1, 2⟩ ∧
    evaluateFormula exEnv (chars "=VLOOKUP(\"Bob\",A1:B3,2,FALSE)") (chars "D1")
      [(chars "A1", mkCell "BOB"), (chars "B1", mkCell "MANAGER")] = chars "MANAGER" :=
  ⟨by decide, by decide, by decide, by decide,
    ((c3_amended exEnv [(chars "A1", mkCell "BOB"), (chars "B1", mkCell "MANAGER")]
        (chars "D1") (chars "=VLOOKUP(\"Bob\",A1:B3,2,FALSE)")
        (chars "\"BOB\"") (chars "A1:B3") (chars "2") (chars "FALSE")
        (by decide) (by decide)).2.2 (chars "A1") (chars "B3") ⟨0, 0⟩ ⟨1, 2⟩ 0
        (by decide) (by decide) (by decide) (by decide) (by decide)
        (fun r2 h => absurd h (Nat.not_lt_zero r2))).trans (by decide)⟩

/-- C10, amended: when some row's first column matches but the flat target
    index `matchRow * numCols + columnIndex - 1` falls at or past the end of
    the enumerated cells (as happens whenever the match is in the last row
    and `columnIndex` exceeds the column count), the out-of-range lookup
    yields a missing cell read as empty text, and the evaluator returns `""`;
    for an earlier match row, an oversized `columnIndex` instead wraps into a
    later row's cell and returns that cell's text. -/
theorem c10_amended (env : JsEnv) (cells : CellStore)
    (cid formula g1 g2 g3 g4 s e : JStr) (sr er : CellRef) (r : Nat)
    (h1 : jsStartsWith (chars "=") formula = true)
    (h2 : vlookupMatch (jsToUpper (jsTrim (formula.drop 1))) = some (g1, g2, g3, g4))
    (hsp : jsSplit ':' g2 = [s, e])
    (hs : parseCellReference s = some sr)
    (he : parseCellReference e = some er)
    (hr : r < (parseRange g2).length / ((er.col : Int) + 1 - (sr.col : Int)).toNat)
    (hit : cellTextAtN (parseRange g2)
        (r * ((er.col : Int) + 1 - (sr.col : Int)).toNat) cells = stripQuotes (jsTrim g1))
    (hfirst : ∀ r2, r2 < r → cellTextAtN (parseRange g2)
        (r2 * ((er.col : Int) + 1 - (sr.col : Int)).toNat) cells ≠ stripQuotes (jsTrim g1))
    (hout : ((parseRange g2).length : Int) ≤
        (r : Int) * (((er.col : Int) + 1 - (sr.col : Int)).toNat : Int) +
          (digitsToNat g3 : Int) - 1) :
    evaluateFormula env formula cid cells = [] := by
  rw [vlookup_found env cells cid formula g1 g2 g3 g4 s e sr er r
    h1 h2 hsp hs he hr hit hfirst]
  exact cellTextAtI_out hout

/-- C10 witness: a match in the last row of `A1:B3` with `columnIndex = 3`
    makes the flat index `2*2+3-1 = 6` out of range, and the evaluator
    returns the empty string. -/
theorem c10_witness :
    vlookupMatch (jsToUpper (jsTrim ((chars "=VLOOKUP(\"BOB\",A1:B3,3,FALSE)").drop 1))) =
      some (chars "\"BOB\"", chars "A1:B3", chars "3", chars "FALSE") ∧
    ((parseRange (chars "A1:B3")).length : Int) ≤ (2 : Int) * 2 + 3 - 1 ∧
    evaluateFormula exEnv (chars "=VLOOKUP(\"BOB\",A1:B3,3,FALSE)") (chars "D1")
      [(chars "A3", mkCell "BOB"), (chars "B3", mkCell "M")] = [] :=
  ⟨by decide, by decide,
    c10_amended exEnv [(chars "A3", mkCell "BOB"), (chars "B3", mkCell "M")]
      (chars "D1") (chars "=VLOOKUP(\"BOB\",A1:B3,3,FALSE)")
      (chars "\"BOB\"") (chars "A1:B3") (chars "3") (chars "FALSE")
      (chars "A1") (chars "B3") ⟨0, 0⟩ ⟨1, 2⟩ 2
      (by decide) (by decide) (by decide) (by decide) (by decide) (by decide)
      (by decide) (by decide) (by decide)⟩
